import Mathlib

/-!
# GPUFabric — verification of the core spec against the source

Shallow embedding of the parts of the GPUFabric repository that the
checked properties are about:

* `gpuf-c/src/util/model_downloader.rs` — the resumable parallel model
  downloader: chunk planning, part files, checksum verification, the
  resume decision of `download()` and the simple streaming fallback;
* `gpuf-s/src/consumer/heartbeat_processor.rs` — the per-record
  transactional heartbeat batch processor;
* `gpuf-s/src/bin/heartbeat_consumer.rs` — the stale-device sweeper's
  UPDATE statement;
* `gpuf-s/src/db/models.rs` — the `get_models_list` catalog query.

Machine integers (`u64`, `usize`, `u8`) are modelled as `Nat`: none of
the verified code paths can overflow 64 bits for the inputs the theorems
quantify over, and Rust panics (rather than wraps) on `u64` underflow in
the places the theorems' hypotheses rule out.  Signed SQL integers and
timestamps are modelled as `Int`.  Fallible external steps (DB round
trips, HTTP responses, the SHA-256 compression itself) are explicit
parameters of the embedded functions, so every definition is executable.
-/

namespace Downloader

/-- `DownloadConfig` (model_downloader.rs lines 21-37).  `url` and
`output_path` are kept as opaque strings; sizes are `Nat`. -/
structure DownloadConfig where
  url : String
  output_path : String
  parallel_chunks : Nat
  chunk_size : Nat
  expected_size : Option Nat
  checksum : Option String
  resume : Bool
deriving Repr, DecidableEq

/-- `Default for DownloadConfig` (lines 39-51). -/
def DownloadConfig.default : DownloadConfig :=
  { url := ""
    output_path := ""
    parallel_chunks := 4
    chunk_size := 8 * 1024 * 1024
    expected_size := none
    checksum := none
    resume := true }

/-- `DownloadChunk` (lines 659-665).  The Rust field `end` is a Lean
keyword, hence the quoted name. -/
structure DownloadChunk where
  start : Nat
  «end» : Nat
  index : Nat
deriving Repr, DecidableEq

/-- `ModelDownloader::calculate_chunks` (lines 248-288), with the
`for`-loop over `0..chunk_count` rendered as a map over `List.range`. -/
def calculate_chunks (cfg : DownloadConfig) (start_pos remaining total_size : Nat) :
    List DownloadChunk :=
  let chunk_size := cfg.chunk_size
  if remaining ≤ chunk_size ∨ cfg.parallel_chunks = 1 then
    [{ start := start_pos, «end» := total_size - 1, index := 0 }]
  else
    let chunk_count := min (remaining / chunk_size) cfg.parallel_chunks
    let actual_chunk_size := remaining / chunk_count
    (List.range chunk_count).map fun i =>
      { start := start_pos + i * actual_chunk_size
        «end» := if i = chunk_count - 1 then total_size - 1
          else (start_pos + i * actual_chunk_size) + actual_chunk_size - 1
        index := i }

/-- Number of bytes a chunk's range spans: `(end - start) + 1`, as computed
for `max_len` at lines 305 and 428. -/
def chunkSpan (c : DownloadChunk) : Nat := (c.«end» - c.start) + 1

/-- The pre-scan over existing part files in `download_chunks`
(lines 300-312): a part file longer than its chunk's span is removed —
afterwards it reads back as absent, length 0 — and any other part file is
kept.  A part file's length, with 0 for an absent file, stands for the file. -/
def scan_part (len : Nat) (c : DownloadChunk) : Nat :=
  if len ≤ chunkSpan c then len else 0

/-- The `Range` request `download_chunk_to_part` issues (lines 421-436):
the resume offset is the part file's length capped at the chunk span, and a
chunk whose resume offset is already past `end` makes no request at all
(the function returns `Ok(())` before opening the file). -/
def chunk_request (c : DownloadChunk) (len0 : Nat) : Option (Nat × Nat) :=
  let existing_len := min len0 (chunkSpan c)
  let start := c.start + existing_len
  if c.«end» < start then none else some (start, c.«end»)

/-- Part-file lengths observable while `download_chunk_to_part`
(lines 408-503) runs: the length before the request, then the length after
each streamed data piece is appended to the part file.  `server s e` gives
the sizes of the data pieces the server streams in its `206` answer to
`Range: bytes=s-e`. -/
def chunk_write_trace (c : DownloadChunk) (len0 : Nat) (server : Nat → Nat → List Nat) :
    List Nat :=
  match chunk_request c len0 with
  | none => [len0]
  | some (s, e) => (server s e).scanl (fun acc piece => acc + piece) len0

/-- The bytes of the final output file, `none` when the file does not
exist.  This is all of the filesystem the verified paths look at. -/
structure FileSystem where
  output : Option (List Nat)
deriving Repr, DecidableEq

/-- Lowercase hexadecimal digit, as Rust's LowerHex formatting uses. -/
def hexDigitChar (n : Nat) : Char :=
  if n < 10 then Char.ofNat (48 + n) else Char.ofNat (87 + n)

/-- Lowercase hexadecimal rendering of a byte string: Rust's
`format!` with the `:x` (LowerHex) spec applied to a SHA-256 digest
(line 523). -/
def bytesToHexLower (bs : List Nat) : String :=
  String.mk (bs.flatMap fun b => [hexDigitChar (b / 16), hexDigitChar (b % 16)])

/-- `ModelDownloader::verify_checksum` (lines 505-535).  The SHA-256
compression itself lives in the external `sha2` crate and is a parameter
`sha256`; the function streams the output file through it, renders the
digest in lowercase hex, and compares after `to_lowercase` on both sides.
It opens the file read-only: the returned filesystem is the one it was
given.  A missing output file makes the open fail (`?`-propagated). -/
def verify_checksum (sha256 : List Nat → List Nat) (fs : FileSystem)
    (expected_checksum : String) : Except String Unit × FileSystem :=
  match fs.output with
  | none => (.error "open failed", fs)
  | some bytes =>
    let actual_checksum := bytesToHexLower (sha256 bytes)
    if actual_checksum.toLower ≠ expected_checksum.toLower then
      (.error "Checksum verification failed", fs)
    else
      (.ok (), fs)

/-- The tail of `download()` (lines 177-183): after the chunks are
assembled into the output file, verify the checksum exactly when the
configuration supplies one. -/
def finish_download (sha256 : List Nat → List Nat) (checksum : Option String)
    (fs : FileSystem) : Except String Unit × FileSystem :=
  match checksum with
  | some expected => verify_checksum sha256 fs expected
  | none => (.ok (), fs)

/-- Which download strategy `download()` commits to. -/
inductive DownloadMode where
  | simpleMode : DownloadMode
  | alreadyComplete : DownloadMode
  | parallelChunks (chunks : List DownloadChunk) : DownloadMode
deriving Repr, DecidableEq

/-- The decision skeleton of `download()` (lines 103-175): `file_size` is
what `get_file_size` reported (0 = unknown).  Returns the chosen strategy
together with whether the expected-size warning of lines 117-124 fired;
that warning is the only thing `expected_size` feeds. -/
def download_plan (cfg : DownloadConfig) (file_size : Nat) (fs : FileSystem) :
    DownloadMode × Bool :=
  if file_size = 0 then (.simpleMode, false)
  else
    let size_warning := match cfg.expected_size with
      | some expected => expected != file_size
      | none => false
    let downloaded_size :=
      if cfg.resume ∧ fs.output.isSome then (fs.output.map List.length).getD 0 else 0
    if 0 < downloaded_size then (.simpleMode, size_warning)
    else
      let remaining_bytes := file_size - downloaded_size
      if remaining_bytes = 0 then (.alreadyComplete, size_warning)
      else
        (.parallelChunks (calculate_chunks cfg downloaded_size remaining_bytes file_size),
          size_warning)

/-- reqwest's `StatusCode::is_success`: the 2xx class. -/
def status_success (status : Nat) : Prop := 200 ≤ status ∧ status < 300

instance (status : Nat) : Decidable (status_success status) :=
  inferInstanceAs (Decidable (200 ≤ status ∧ status < 300))

/-- Outcome of one run of the simple streaming download. -/
structure SimpleResult where
  range_request_from : Option Nat
  fs : FileSystem
  ok : Bool
deriving Repr, DecidableEq

/-- `ModelDownloader::simple_download` (lines 538-656) up to its checksum
step (which `finish_download` models): resume offset from the existing
output file, a single request carrying `Range: bytes=N-` exactly when the
offset is positive, append on a `206` answer, truncate-and-restart
otherwise.  `status` is the response status and `body` the streamed
response bytes; on a non-success status the function fails before touching
the file. -/
def simple_download (cfg : DownloadConfig) (fs : FileSystem) (status : Nat)
    (body : List Nat) : SimpleResult :=
  let resume_from := if cfg.resume then (fs.output.map List.length).getD 0 else 0
  let range_request := if 0 < resume_from then some resume_from else none
  if ¬ (status_success status ∨ status = 206) then
    { range_request_from := range_request, fs := fs, ok := false }
  else
    let effective_resume_from :=
      if 0 < resume_from ∧ status = 206 then resume_from else 0
    let final_bytes :=
      if 0 < effective_resume_from then fs.output.getD [] ++ body else body
    { range_request_from := range_request, fs := { output := some final_bytes }, ok := true }

/-- Configuration used by the concrete checks: four parallel chunks of
1 KiB, resume on — the shape of the module's own unit test. -/
def testConfig : DownloadConfig :=
  { url := ""
    output_path := ""
    parallel_chunks := 4
    chunk_size := 1024
    expected_size := none
    checksum := none
    resume := true }

end Downloader

namespace Server

/-- `rdkafka::message::Timestamp` as `process_batch` matches on it
(heartbeat_processor.rs lines 52-58). -/
inductive KafkaTimestamp where
  | notAvailable : KafkaTimestamp
  | createTime (ms : Int) : KafkaTimestamp
  | logAppendTime (ms : Int) : KafkaTimestamp
deriving Repr, DecidableEq

/-- An owned Kafka record as `process_batch` reads it: optional key,
optional payload (raw bytes), broker timestamp. -/
structure OwnedMessage where
  key : Option (List Nat)
  payload : Option (List Nat)
  timestamp : KafkaTimestamp
deriving Repr, DecidableEq

/-- Modelled from the spec: `SystemInfo` lives in `util/protoc.rs`, which
is not among the staged sources; §6 of the spec gives `cpu_usage`,
`memory_usage`, `disk_usage` as `u8` and `network_rx`/`network_tx` as
`u64`. -/
structure SystemInfo where
  cpu_usage : Nat
  memory_usage : Nat
  disk_usage : Nat
  network_rx : Nat
  network_tx : Nat
deriving Repr, DecidableEq

/-- Modelled from the spec: per-device descriptor of `util/protoc.rs`
(not among the staged sources); §6 gives `pod_id`, `engine_type : i16`,
`os_type : i16`, `memtotal_gb : u32`. -/
structure DevicesInfo where
  pod_id : Nat
  engine_type : Int
  os_type : Int
  memtotal_gb : Nat
deriving Repr, DecidableEq

/-- Modelled from the spec: `protoc::HeartbeatMessage` (not among the
staged sources); §6 gives the field list. -/
structure HeartbeatMessage where
  client_id : List Nat
  system_info : SystemInfo
  device_count : Nat
  device_memtotal_gb : Nat
  total_tflops : Nat
  devices_info : List DevicesInfo
deriving Repr, DecidableEq

/-- `process_batch`'s collaborators, all external to the file under
verification: the `bincode` wire decode and the three SQL writes of
`db/stats.rs` (not among the staged sources), plus the outcome of
BEGIN/COMMIT round trips.  Each write maps the open transaction's view of
the database to the view with the write applied, or fails; `σ` is the
database state.  `process_batch`'s control flow over these steps is the
code under verification. -/
structure ProcessorEnv (σ : Type) where
  decode : List Nat → Option HeartbeatMessage
  insert_heartbeat : σ → HeartbeatMessage → Int → Except String σ
  client_daily_upsert : σ → HeartbeatMessage → Int → Except String σ
  device_daily_upsert : σ → HeartbeatMessage → Int → Except String σ
  begin_ok : σ → Bool
  commit_ok : σ → Bool
  now : Int

/-- Event-timestamp resolution (lines 52-58): broker timestamp in ms when
present, else the current wall clock. -/
def resolve_event_ts (now : Int) : KafkaTimestamp → Int
  | .notAvailable => now
  | .createTime ms => ms
  | .logAppendTime ms => ms

/-- What one loop iteration of `process_batch` did, in order. -/
inductive ProcessorAction where
  | decode_attempt
  | txn_begin
  | write_heartbeat
  | write_client_daily
  | write_device_daily
  | txn_commit
  | txn_rollback
deriving Repr, DecidableEq

/-- One iteration of `process_batch`'s loop (lines 49-166), for one
record: the resulting committed database state, and the trace of what the
iteration did.  Keyless records are skipped at the `match` head
(lines 162-165), before the payload is looked at; each failing DB step
rolls the record's transaction back (`continue`), leaving the committed
state untouched; only a successful COMMIT publishes the transaction's
view, which carries all three writes. -/
def process_record {σ : Type} (env : ProcessorEnv σ) (db : σ) (m : OwnedMessage) :
    σ × List ProcessorAction :=
  match m.key with
  | none => (db, [])
  | some _ =>
    let event_ts := resolve_event_ts env.now m.timestamp
    match m.payload with
    | none => (db, [])
    | some payload =>
      match env.decode payload with
      | none => (db, [.decode_attempt])
      | some heartbeat =>
        if env.begin_ok db then
          match env.insert_heartbeat db heartbeat event_ts with
          | .error _ =>
            (db, [.decode_attempt, .txn_begin, .write_heartbeat, .txn_rollback])
          | .ok tx1 =>
            match env.client_daily_upsert tx1 heartbeat event_ts with
            | .error _ =>
              (db, [.decode_attempt, .txn_begin, .write_heartbeat,
                .write_client_daily, .txn_rollback])
            | .ok tx2 =>
              match env.device_daily_upsert tx2 heartbeat event_ts with
              | .error _ =>
                (db, [.decode_attempt, .txn_begin, .write_heartbeat,
                  .write_client_daily, .write_device_daily, .txn_rollback])
              | .ok tx3 =>
                if env.commit_ok tx3 then
                  (tx3, [.decode_attempt, .txn_begin, .write_heartbeat,
                    .write_client_daily, .write_device_daily, .txn_commit])
                else
                  (db, [.decode_attempt, .txn_begin, .write_heartbeat,
                    .write_client_daily, .write_device_daily, .txn_rollback])
        else (db, [.decode_attempt, .txn_begin])

/-- `process_batch` (lines 48-170): the loop over the batch.  The Rust
function's `Result` is kept: the loop body `continue`s on every failure,
so the only `Result` the function ever produces is `Ok`. -/
def process_batch {σ : Type} (env : ProcessorEnv σ) :
    List OwnedMessage → σ → Except String σ
  | [], db => .ok db
  | m :: rest, db => process_batch env rest (process_record env db m).fst

/-- A row of `gpu_assets` with the columns the sweeper's UPDATE reads or
writes, plus the identifying columns it must leave alone. -/
structure GpuAssetRow where
  client_id : List Nat
  user_id : Nat
  client_name : String
  valid_status : String
  client_status : String
  updated_at : Int
deriving Repr, DecidableEq

/-- The WHERE clause of the sweeper's UPDATE (heartbeat_consumer.rs
lines 63-69): `valid_status = 'valid' AND client_status <> 'offline' AND
updated_at < NOW() - offline_after_secs * INTERVAL '1 second'`. -/
def sweep_cond (offline_after_secs now : Int) (r : GpuAssetRow) : Prop :=
  r.valid_status = "valid" ∧ r.client_status ≠ "offline" ∧
    r.updated_at < now - offline_after_secs

instance (offline_after_secs now : Int) (r : GpuAssetRow) :
    Decidable (sweep_cond offline_after_secs now r) :=
  inferInstanceAs (Decidable (_ ∧ _ ∧ _))

/-- One execution of the sweeper's UPDATE (lines 63-69): every row the
WHERE clause selects gets `client_status = 'offline', updated_at = NOW()`;
every other row is untouched. -/
def sweep (offline_after_secs now : Int) (rows : List GpuAssetRow) : List GpuAssetRow :=
  rows.map fun r =>
    if sweep_cond offline_after_secs now r then
      { r with client_status := "offline", updated_at := now }
    else r

/-- `rows_affected()` of the sweeper's UPDATE (line 73): how many rows the
WHERE clause selects. -/
def sweep_rows_affected (offline_after_secs now : Int) (rows : List GpuAssetRow) : Nat :=
  (rows.filter fun r => decide (sweep_cond offline_after_secs now r)).length

/-- A row of `client_models` with every column `get_models_list`
(db/models.rs lines 224-255) selects or filters on.  (The SELECT list
projects `engine_type` away; the returned rows are modelled as full table
rows, which carries strictly more information.) -/
structure ClientModelRow where
  id : Int
  name : String
  version : String
  version_code : Int
  is_active : Bool
  min_memory_mb : Option Int
  engine_type : Int
  min_gpu_memory_gb : Option Int
  created_at : Int
  download_url : Option String
  checksum : Option String
  expected_size : Option Int
deriving Repr, DecidableEq

/-- The dynamically built WHERE clause of `get_models_list`
(lines 233-246): each supplied filter adds its conjunct; the memory
predicate is `min_gpu_memory_gb IS NULL OR min_gpu_memory_gb <= mem`. -/
def models_where (is_active : Option Bool) (engine_type : Option Int)
    (min_gpu_memory_gb : Option Int) (r : ClientModelRow) : Bool :=
  (match is_active with
    | some active => r.is_active == active
    | none => true) &&
  (match min_gpu_memory_gb with
    | some mem =>
      match r.min_gpu_memory_gb with
      | none => true
      | some v => decide (v ≤ mem)
    | none => true) &&
  (match engine_type with
    | some e => r.engine_type == e
    | none => true)

/-- The first ORDER BY key of `get_models_list` (line 247):
`CASE WHEN min_gpu_memory_gb IS NULL THEN 0 ELSE min_gpu_memory_gb END`. -/
def order_case_key (r : ClientModelRow) : Int :=
  match r.min_gpu_memory_gb with
  | none => 0
  | some v => v

/-- The ORDER BY of `get_models_list` (line 247) as a comes-no-later
relation: descending on the CASE key, then descending `version_code`, then
descending `created_at`. -/
def models_le (a b : ClientModelRow) : Prop :=
  order_case_key b < order_case_key a ∨
    (order_case_key a = order_case_key b ∧
      (b.version_code < a.version_code ∨
        (a.version_code = b.version_code ∧ b.created_at ≤ a.created_at)))

instance : DecidableRel models_le := fun _ _ =>
  inferInstanceAs (Decidable (_ ∨ _))

instance : IsTotal ClientModelRow models_le :=
  ⟨fun a b => by unfold models_le; omega⟩

instance : IsTrans ClientModelRow models_le :=
  ⟨fun a b c hab hbc => by unfold models_le at hab hbc ⊢; omega⟩

/-- `get_models_list` (lines 224-255) over a table state: keep the rows
the WHERE clause selects and emit them in ORDER BY order (rendered as an
insertion sort by `models_le`; the full sort key is injective on distinct
key values, so any ORDER-BY-compliant answer agrees with it up to
full-key ties). -/
def get_models_list (rows : List ClientModelRow) (is_active : Option Bool)
    (engine_type : Option Int) (min_gpu_memory_gb : Option Int) : List ClientModelRow :=
  (rows.filter (models_where is_active engine_type min_gpu_memory_gb)).insertionSort
    models_le

/-- Modelled from the spec: the ordering §4.5 states for
`get_models_list` — `min_gpu_memory_gb DESC NULLS LAST`, then
`version_code DESC`, then `created_at DESC` — as a comes-no-later
relation.  `NULLS LAST` places every NULL strictly after every non-NULL
value. -/
def spec_nulls_last_le (a b : ClientModelRow) : Bool :=
  let tiebreak : Bool :=
    decide (b.version_code < a.version_code) ||
      (a.version_code == b.version_code && decide (b.created_at ≤ a.created_at))
  match a.min_gpu_memory_gb, b.min_gpu_memory_gb with
  | some va, some vb => decide (vb < va) || (va == vb && tiebreak)
  | some _, none => true
  | none, some _ => false
  | none, none => tiebreak

/-- Catalog row A of the spec's assignment-filter scenario:
`min_gpu = 8`, `version_code = 2`, active. -/
def modelA : ClientModelRow :=
  { id := 1, name := "A", version := "1", version_code := 2, is_active := true
    min_memory_mb := none, engine_type := 3, min_gpu_memory_gb := some 8
    created_at := 0, download_url := none, checksum := none, expected_size := none }

/-- Catalog row B of the spec's assignment-filter scenario:
`min_gpu = 16`, `version_code = 3`, active. -/
def modelB : ClientModelRow :=
  { id := 2, name := "B", version := "1", version_code := 3, is_active := true
    min_memory_mb := none, engine_type := 3, min_gpu_memory_gb := some 16
    created_at := 0, download_url := none, checksum := none, expected_size := none }

/-- Catalog row C of the spec's assignment-filter scenario:
`min_gpu = NULL`, `version_code = 1`, active. -/
def modelC : ClientModelRow :=
  { id := 3, name := "C", version := "1", version_code := 1, is_active := true
    min_memory_mb := none, engine_type := 3, min_gpu_memory_gb := none
    created_at := 0, download_url := none, checksum := none, expected_size := none }

/-- A catalog row with `min_gpu_memory_gb = 0` and `version_code = 1`. -/
def modelZeroGpu : ClientModelRow :=
  { id := 10, name := "Z", version := "1", version_code := 1, is_active := true
    min_memory_mb := none, engine_type := 3, min_gpu_memory_gb := some 0
    created_at := 0, download_url := none, checksum := none, expected_size := none }

/-- A catalog row with `min_gpu_memory_gb = NULL` and `version_code = 2`. -/
def modelNullGpu : ClientModelRow :=
  { id := 11, name := "N", version := "1", version_code := 2, is_active := true
    min_memory_mb := none, engine_type := 3, min_gpu_memory_gb := none
    created_at := 0, download_url := none, checksum := none, expected_size := none }

/-- A concrete processor environment over `Nat` database states, for the
witnesses: decoding always fails, each write succeeds without changing the
state, BEGIN and COMMIT succeed. -/
def witnessEnv : ProcessorEnv Nat :=
  { decode := fun _ => none
    insert_heartbeat := fun s _ _ => .ok s
    client_daily_upsert := fun s _ _ => .ok s
    device_daily_upsert := fun s _ _ => .ok s
    begin_ok := fun _ => true
    commit_ok := fun _ => true
    now := 0 }

end Server

/-! ## Theorems -/

namespace Downloader

/-- Shape facts about the chunk list the multi-chunk branch of
`calculate_chunks` builds: `n` chunks of `s` bytes each except the last,
which runs to `total - 1`. -/
theorem range_chunks_facts (n s total : Nat) (L : List DownloadChunk)
    (hL : L = (List.range n).map (fun i =>
      { start := i * s
        «end» := if i = n - 1 then total - 1 else i * s + s - 1
        index := i }))
    (hn1 : 1 ≤ n) (hs1 : 1 ≤ s) (hns : n * s ≤ total) :
    L.length = n ∧
    L.head?.map DownloadChunk.start = some 0 ∧
    L.getLast?.map DownloadChunk.«end» = some (total - 1) ∧
    (∀ c ∈ L, c.start ≤ c.«end») ∧
    List.Chain' (fun a b => b.start = a.«end» + 1) L ∧
    (∀ c ∈ L.dropLast, c.«end» + 1 - c.start = s) := by
  subst hL
  have hmul : (n - 1) * s + s = n * s := by
    calc (n - 1) * s + s = ((n - 1) + 1) * s := by ring
    _ = n * s := by rw [Nat.sub_add_cancel hn1]
  refine ⟨by simp, ?_, ?_, ?_, ?_, ?_⟩
  · rw [List.head?_eq_getElem?, List.getElem?_eq_getElem (by simp; omega)]
    simp
  · rw [List.getLast?_eq_getElem?, List.getElem?_eq_getElem (by simp; omega)]
    simp
  · rintro c hc
    rw [List.mem_iff_getElem] at hc
    obtain ⟨i, hi, hci⟩ := hc
    have hi2 : i < n := by simpa using hi
    rw [List.getElem_map, List.getElem_range] at hci
    subst hci
    by_cases hlast : i = n - 1
    · subst hlast
      simp only [if_pos rfl]
      show (n - 1) * s ≤ total - 1
      omega
    · simp only [if_neg hlast]
      omega
  · rw [List.chain'_iff_get]
    intro i hi
    simp only [List.get_eq_getElem, List.getElem_map, List.getElem_range]
    have hilen : i < n - 1 := by simpa using hi
    have hine : i ≠ n - 1 := by omega
    simp only [if_neg hine]
    have h2 : (i + 1) * s = i * s + s := by ring
    omega
  · rintro c hc
    rw [List.mem_iff_getElem] at hc
    obtain ⟨i, hi, hci⟩ := hc
    have hi2 : i < n - 1 := by
      simp only [List.length_dropLast, List.length_map, List.length_range] at hi
      omega
    rw [List.getElem_dropLast, List.getElem_map, List.getElem_range] at hci
    subst hci
    have hine : i ≠ n - 1 := by omega
    simp only [if_neg hine]
    omega

/-- C2 — Chunk-plan correctness: for every `total_size ≥ 1` and every
configuration with `parallel_chunks ≥ 1` and `chunk_size ≥ 1`,
`calculate_chunks 0 total total` returns a non-empty list of contiguous,
non-overlapping well-formed ranges whose first range starts at 0 and whose
last range ends at `total - 1`; the list has at most `parallel_chunks`
entries, is a single range whenever `total ≤ chunk_size` or
`parallel_chunks = 1`, and every range except the last spans exactly
`total / n` bytes, `n` the number of ranges. -/
theorem calculate_chunks_plan (cfg : DownloadConfig) (total : Nat)
    (htotal : 1 ≤ total) (hpar : 1 ≤ cfg.parallel_chunks) (hcs : 1 ≤ cfg.chunk_size) :
    (calculate_chunks cfg 0 total total).length ≠ 0 ∧
    (calculate_chunks cfg 0 total total).length ≤ cfg.parallel_chunks ∧
    ((total ≤ cfg.chunk_size ∨ cfg.parallel_chunks = 1) →
      (calculate_chunks cfg 0 total total).length = 1) ∧
    (calculate_chunks cfg 0 total total).head?.map DownloadChunk.start = some 0 ∧
    (calculate_chunks cfg 0 total total).getLast?.map DownloadChunk.«end» =
      some (total - 1) ∧
    (∀ c ∈ calculate_chunks cfg 0 total total, c.start ≤ c.«end») ∧
    List.Chain' (fun a b => b.start = a.«end» + 1) (calculate_chunks cfg 0 total total) ∧
    (∀ c ∈ (calculate_chunks cfg 0 total total).dropLast,
      c.«end» + 1 - c.start = total / (calculate_chunks cfg 0 total total).length) := by
  by_cases hsingle : total ≤ cfg.chunk_size ∨ cfg.parallel_chunks = 1
  · have hchunks : calculate_chunks cfg 0 total total =
        [{ start := 0, «end» := total - 1, index := 0 }] := by
      simp only [calculate_chunks, if_pos hsingle]
    rw [hchunks]
    refine ⟨by simp, by simpa using hpar, fun _ => rfl, by simp, by simp, ?_, by simp,
      by simp⟩
    rintro c hc
    simp only [List.mem_singleton] at hc
    subst hc
    simp
  · have hnot := hsingle
    push_neg at hsingle
    obtain ⟨h1, h2⟩ := hsingle
    have hchunks : calculate_chunks cfg 0 total total =
        (List.range (min (total / cfg.chunk_size) cfg.parallel_chunks)).map (fun i =>
          { start := i * (total / min (total / cfg.chunk_size) cfg.parallel_chunks)
            «end» := if i = min (total / cfg.chunk_size) cfg.parallel_chunks - 1
              then total - 1
              else i * (total / min (total / cfg.chunk_size) cfg.parallel_chunks) +
                (total / min (total / cfg.chunk_size) cfg.parallel_chunks) - 1
            index := i }) := by
      simp only [calculate_chunks]
      rw [if_neg hnot]
      simp only [Nat.zero_add]
    have hcs0 : 0 < cfg.chunk_size := hcs
    have hdiv1 : 1 ≤ total / cfg.chunk_size := (Nat.one_le_div_iff hcs0).mpr (le_of_lt h1)
    have hn1 : 1 ≤ min (total / cfg.chunk_size) cfg.parallel_chunks := le_min hdiv1 hpar
    have hncs : (min (total / cfg.chunk_size) cfg.parallel_chunks) * cfg.chunk_size ≤
        total := (Nat.le_div_iff_mul_le hcs0).mp (min_le_left _ _)
    have hs_ge : cfg.chunk_size ≤ total / min (total / cfg.chunk_size) cfg.parallel_chunks :=
      (Nat.le_div_iff_mul_le hn1).mpr (by nlinarith)
    have hs1 : 1 ≤ total / min (total / cfg.chunk_size) cfg.parallel_chunks :=
      le_trans hcs hs_ge
    have hns : (min (total / cfg.chunk_size) cfg.parallel_chunks) *
        (total / min (total / cfg.chunk_size) cfg.parallel_chunks) ≤ total :=
      Nat.mul_div_le total _
    obtain ⟨hlen, hhead, hlast, hwf, hchain, hsz⟩ :=
      range_chunks_facts _ _ total (calculate_chunks cfg 0 total total) hchunks hn1 hs1 hns
    refine ⟨by omega, by rw [hlen]; exact min_le_right _ _,
      fun hc => (hnot hc).elim, hhead, hlast, hwf, hchain, ?_⟩
    intro c hc
    rw [hlen]
    exact hsz c hc

/-- C2 witness, at the module's own unit-test instance: a 5000-byte file,
1 KiB chunks, 4-way parallelism. -/
theorem calculate_chunks_plan_witness :
    (calculate_chunks testConfig 0 5000 5000).length ≠ 0 ∧
    (calculate_chunks testConfig 0 5000 5000).length ≤ testConfig.parallel_chunks ∧
    ((5000 ≤ testConfig.chunk_size ∨ testConfig.parallel_chunks = 1) →
      (calculate_chunks testConfig 0 5000 5000).length = 1) ∧
    (calculate_chunks testConfig 0 5000 5000).head?.map DownloadChunk.start = some 0 ∧
    (calculate_chunks testConfig 0 5000 5000).getLast?.map DownloadChunk.«end» =
      some (5000 - 1) ∧
    (∀ c ∈ calculate_chunks testConfig 0 5000 5000, c.start ≤ c.«end») ∧
    List.Chain' (fun a b => b.start = a.«end» + 1)
      (calculate_chunks testConfig 0 5000 5000) ∧
    (∀ c ∈ (calculate_chunks testConfig 0 5000 5000).dropLast,
      c.«end» + 1 - c.start = 5000 / (calculate_chunks testConfig 0 5000 5000).length) :=
  calculate_chunks_plan testConfig 5000 (by decide) (by decide) (by decide)

end Downloader

namespace Downloader

/-- Every running total of an append sequence is bounded by the initial
length plus the total number of appended bytes. -/
theorem scanl_add_le (pieces : List Nat) (a : Nat) :
    ∀ x ∈ pieces.scanl (fun acc piece => acc + piece) a, x ≤ a + pieces.sum := by
  induction pieces generalizing a with
  | nil =>
    intro x hx
    simp only [List.scanl_nil, List.mem_singleton] at hx
    omega
  | cons p ps ih =>
    intro x hx
    simp only [List.scanl_cons, List.singleton_append, List.mem_cons] at hx
    rcases hx with h | h
    · simp [h]
    · have := ih (a + p) x h
      simp only [List.sum_cons]
      omega

/-- C3 — Part-file size invariant: provided the server answers each
`Range: bytes=s-e` request by streaming exactly `e - s + 1` bytes in its
`206` response, a part file whose chunk went through the `download_chunks`
pre-scan never holds more than its chunk's span at any point of the run:
the scan deletes any pre-existing oversized part file, the resume offset
is capped at the span, the request covers only
`c.start + existing_len ..= c.end`, a chunk whose resume offset is past
`c.end` writes nothing, and every intermediate length stays within the
span. -/
theorem part_file_size_invariant (c : DownloadChunk) (len0 : Nat)
    (server : Nat → Nat → List Nat)
    (hserver : ∀ s e, s ≤ e → (server s e).sum = e - s + 1) :
    scan_part len0 c ≤ chunkSpan c ∧
    (chunkSpan c < len0 → scan_part len0 c = 0) ∧
    (∀ s e, chunk_request c (scan_part len0 c) = some (s, e) →
      s = c.start + min (scan_part len0 c) (chunkSpan c) ∧ e = c.«end») ∧
    (chunk_request c (scan_part len0 c) = none →
      chunk_write_trace c (scan_part len0 c) server = [scan_part len0 c]) ∧
    ∀ l ∈ chunk_write_trace c (scan_part len0 c) server, l ≤ chunkSpan c := by
  have hscan : scan_part len0 c ≤ chunkSpan c := by
    unfold scan_part
    split <;> omega
  refine ⟨hscan, ?_, ?_, ?_, ?_⟩
  · intro hbig
    unfold scan_part
    rw [if_neg (by omega)]
  · intro s e hreq
    unfold chunk_request at hreq
    simp only at hreq
    split at hreq
    · exact absurd hreq (by simp)
    · obtain ⟨hs, he⟩ := Prod.mk.injEq .. ▸ (Option.some.injEq .. ▸ hreq)
      exact ⟨hs.symm, he.symm⟩
  · intro hnone
    unfold chunk_write_trace
    rw [hnone]
  · intro l hl
    unfold chunk_write_trace at hl
    rcases hreq : chunk_request c (scan_part len0 c) with _ | se
    · rw [hreq] at hl
      simp only [List.mem_singleton] at hl
      omega
    · obtain ⟨s, e⟩ := se
      rw [hreq] at hl
      unfold chunk_request at hreq
      simp only at hreq
      split at hreq
      · exact absurd hreq (by simp)
      · rename_i hle
        obtain ⟨hs, he⟩ := Prod.mk.injEq .. ▸ (Option.some.injEq .. ▸ hreq)
        have hmin : min (scan_part len0 c) (chunkSpan c) = scan_part len0 c :=
          min_eq_left hscan
        rw [hmin] at hs hle
        have hse : s ≤ e := by omega
        have hsum := hserver s e hse
        have hx := scanl_add_le (server s e) (scan_part len0 c) l hl
        rw [hsum] at hx
        unfold chunkSpan at *
        omega

/-- C3 witness: a 10-byte chunk `[0, 9]` whose pre-existing part file has
15 bytes (it is deleted by the scan), against a server that streams each
requested range as one piece. -/
theorem part_file_size_invariant_witness :
    scan_part 15 ⟨0, 9, 0⟩ ≤ chunkSpan ⟨0, 9, 0⟩ ∧
    (chunkSpan ⟨0, 9, 0⟩ < 15 → scan_part 15 ⟨0, 9, 0⟩ = 0) ∧
    (∀ s e, chunk_request ⟨0, 9, 0⟩ (scan_part 15 ⟨0, 9, 0⟩) = some (s, e) →
      s = (0 : Nat) + min (scan_part 15 ⟨0, 9, 0⟩) (chunkSpan ⟨0, 9, 0⟩) ∧ e = 9) ∧
    (chunk_request ⟨0, 9, 0⟩ (scan_part 15 ⟨0, 9, 0⟩) = none →
      chunk_write_trace ⟨0, 9, 0⟩ (scan_part 15 ⟨0, 9, 0⟩) (fun s e => [e + 1 - s]) =
        [scan_part 15 ⟨0, 9, 0⟩]) ∧
    ∀ l ∈ chunk_write_trace ⟨0, 9, 0⟩ (scan_part 15 ⟨0, 9, 0⟩) (fun s e => [e + 1 - s]),
      l ≤ chunkSpan ⟨0, 9, 0⟩ :=
  part_file_size_invariant ⟨0, 9, 0⟩ 15 (fun s e => [e + 1 - s])
    (by intro s e h; simp; omega)

end Downloader

namespace Downloader

/-- C4 — Checksum verification: with a checksum configured, the
verification step at the end of `download()` leaves the filesystem exactly
as it found it (it never deletes or truncates the output file), and it
succeeds precisely when the lowercase-folded hex digest of the output
file's bytes equals the lowercase-folded expected string — otherwise
`download()` returns the verification error. -/
theorem checksum_verification (sha256 : List Nat → List Nat) (fs : FileSystem)
    (bytes : List Nat) (expected : String) (hfile : fs.output = some bytes) :
    (finish_download sha256 (some expected) fs).snd = fs ∧
    ((finish_download sha256 (some expected) fs).fst = .ok () ↔
      (bytesToHexLower (sha256 bytes)).toLower = expected.toLower) := by
  rcases fs with ⟨out⟩
  simp only [FileSystem.mk.injEq] at hfile
  subst hfile
  simp only [finish_download, verify_checksum]
  by_cases h : (bytesToHexLower (sha256 bytes)).toLower = expected.toLower
  · rw [if_neg (by simpa using h)]
    simp [h]
  · rw [if_pos (by simpa using h)]
    simp [h]

/-- C4 witness: a one-byte digest `0xab` against the expected string
`"AB"` — equal ignoring case, so verification succeeds and the file
stays. -/
theorem checksum_verification_witness :
    (finish_download (fun _ => [171]) (some "AB") ⟨some [1, 2, 3]⟩).snd =
      (⟨some [1, 2, 3]⟩ : FileSystem) ∧
    ((finish_download (fun _ => [171]) (some "AB") ⟨some [1, 2, 3]⟩).fst = .ok () ↔
      (bytesToHexLower ((fun _ => [171]) [1, 2, 3])).toLower = "AB".toLower) :=
  checksum_verification (fun _ => [171]) ⟨some [1, 2, 3]⟩ [1, 2, 3] "AB" rfl

/-- C5 — Resume decision: with `resume = true` and a non-empty final
output file already on disk, `download()` never starts the parallel
ranged path — whatever size the probe reported, the plan is the simple
streaming download; that download issues its single request with
`Range: bytes=existing_len-`, appends to the existing bytes on a `206`
answer, and rewrites from offset 0 only when the server answers success
without `206`. -/
theorem resume_uses_simple_download (cfg : DownloadConfig) (file_size : Nat)
    (content body : List Nat) (status : Nat)
    (hresume : cfg.resume = true) (hnonempty : content ≠ []) :
    (download_plan cfg file_size ⟨some content⟩).fst = .simpleMode ∧
    (simple_download cfg ⟨some content⟩ status body).range_request_from =
      some content.length ∧
    (status = 206 →
      (simple_download cfg ⟨some content⟩ status body).fs.output =
        some (content ++ body)) ∧
    (status_success status → status ≠ 206 →
      (simple_download cfg ⟨some content⟩ status body).fs.output = some body) := by
  have hlen : 0 < content.length := List.length_pos.mpr hnonempty
  refine ⟨?_, ?_, ?_, ?_⟩
  · unfold download_plan
    by_cases hfs : file_size = 0
    · rw [if_pos hfs]
    · rw [if_neg hfs]
      simp only [hresume, Option.isSome_some, Option.map_some, Option.getD_some]
      rw [if_pos (by simpa using hlen)]
  · unfold simple_download
    simp only [hresume, Option.map_some, Option.getD_some, if_true]
    split
    · simp [if_pos hlen]
    · simp [if_pos hlen]
  · intro h206
    subst h206
    simp [simple_download, hresume, hlen]
  · intro hok hne
    simp [simple_download, hresume, hlen, hok, hne]

/-- C5 witness: resume of a 3-byte file; the server answers `206` and
streams two more bytes. -/
theorem resume_uses_simple_download_witness :
    (download_plan testConfig 100 ⟨some [1, 2, 3]⟩).fst = .simpleMode ∧
    (simple_download testConfig ⟨some [1, 2, 3]⟩ 206 [4, 5]).range_request_from =
      some ([1, 2, 3] : List Nat).length ∧
    ((206 : Nat) = 206 →
      (simple_download testConfig ⟨some [1, 2, 3]⟩ 206 [4, 5]).fs.output =
        some ([1, 2, 3] ++ [4, 5])) ∧
    (status_success 206 → (206 : Nat) ≠ 206 →
      (simple_download testConfig ⟨some [1, 2, 3]⟩ 206 [4, 5]).fs.output =
        some [4, 5]) :=
  resume_uses_simple_download testConfig 100 [1, 2, 3] [4, 5] 206 rfl (by decide)

/-- C10 — An `expected_size` mismatch only logs a warning: the strategy
`download()` picks is the same for every value of `expected_size` (so a
mismatch on its own never turns the run into an error), and when the
configured value differs from the server-reported size the warning
fires. -/
theorem expected_size_mismatch_warns_only (cfg : DownloadConfig) (file_size : Nat)
    (fs : FileSystem) (e : Option Nat) (n : Nat)
    (hexp : cfg.expected_size = some n) (hne : n ≠ file_size) (hfs : file_size ≠ 0) :
    (download_plan { cfg with expected_size := e } file_size fs).fst =
      (download_plan cfg file_size fs).fst ∧
    (download_plan cfg file_size fs).snd = true := by
  obtain ⟨url, output_path, parallel_chunks, chunk_size, expected_size, checksum,
    resume⟩ := cfg
  simp only at hexp
  subst hexp
  have hwarn : (n != file_size) = true := by simpa using hne
  constructor
  · simp only [download_plan]
    split_ifs <;> rfl
  · simp only [download_plan]
    rw [if_neg hfs]
    simp only [hwarn]
    split_ifs <;> rfl

/-- C10 witness: expected 50 bytes, server reports 100; dropping the
expectation entirely picks the same strategy, and the warning fires. -/
theorem expected_size_mismatch_warns_only_witness :
    (download_plan { { testConfig with expected_size := some 50 } with
        expected_size := none } 100 ⟨none⟩).fst =
      (download_plan { testConfig with expected_size := some 50 } 100 ⟨none⟩).fst ∧
    (download_plan { testConfig with expected_size := some 50 } 100 ⟨none⟩).snd = true :=
  expected_size_mismatch_warns_only { testConfig with expected_size := some 50 }
    100 ⟨none⟩ none 50 rfl (by decide) (by decide)

end Downloader

namespace Server

/-- C1 — Per-record atomicity: a batch is processed record by record and
always completes (the loop `continue`s on every failure, so `process_batch`
returns `Ok` of the fold of the per-record step over the batch, never
aborting early and never undoing an earlier record's committed state); and
every single record either leaves the committed database exactly as it was
— whichever step failed — or commits the state carrying the heartbeat
insert, the `ClientDailyStats` upsert and the `DeviceDailyStats` upsert
together, applied inside that record's transaction alone. -/
theorem process_batch_per_record_atomicity {σ : Type} (env : ProcessorEnv σ)
    (msgs : List OwnedMessage) (db : σ) :
    process_batch env msgs db =
      .ok (msgs.foldl (fun d m => (process_record env d m).fst) db) ∧
    ∀ (d : σ) (m : OwnedMessage),
      (process_record env d m).fst = d ∨
      ∃ payload heartbeat tx1 tx2 tx3,
        m.payload = some payload ∧
        env.decode payload = some heartbeat ∧
        env.insert_heartbeat d heartbeat (resolve_event_ts env.now m.timestamp) =
          .ok tx1 ∧
        env.client_daily_upsert tx1 heartbeat (resolve_event_ts env.now m.timestamp) =
          .ok tx2 ∧
        env.device_daily_upsert tx2 heartbeat (resolve_event_ts env.now m.timestamp) =
          .ok tx3 ∧
        env.commit_ok tx3 = true ∧
        (process_record env d m).fst = tx3 := by
  constructor
  · induction msgs generalizing db with
    | nil => rfl
    | cons m rest ih =>
      simp only [process_batch, List.foldl_cons]
      exact ih _
  · intro d m
    obtain ⟨key, payload, ts⟩ := m
    rcases key with _ | k
    · exact Or.inl rfl
    rcases payload with _ | p
    · exact Or.inl rfl
    simp only [process_record]
    rcases hdec : env.decode p with _ | hb
    · exact Or.inl (by trivial)
    rcases hbegin : env.begin_ok d with _ | _
    · simp only [hbegin, Bool.false_eq_true, if_false]
      exact Or.inl (by trivial)
    simp only [hbegin, if_true]
    rcases hins : env.insert_heartbeat d hb (resolve_event_ts env.now ts) with e | tx1
    · exact Or.inl (by trivial)
    dsimp only
    rcases hcli : env.client_daily_upsert tx1 hb (resolve_event_ts env.now ts) with e | tx2
    · exact Or.inl (by trivial)
    dsimp only
    rcases hdev : env.device_daily_upsert tx2 hb (resolve_event_ts env.now ts) with e | tx3
    · exact Or.inl (by trivial)
    dsimp only
    rcases hcommit : env.commit_ok tx3 with _ | _
    · simp only [hcommit, Bool.false_eq_true, if_false]
      exact Or.inl (by trivial)
    · simp only [hcommit, if_true]
      exact Or.inr ⟨p, hb, tx1, tx2, tx3, rfl, hdec, hins, hcli, hdev, hcommit, by trivial⟩

/-- C9 — A record whose key is `None` is skipped before anything else
happens: its trace is empty (no decode attempt, no transaction, no write)
and the committed state is untouched; the loop then simply moves to the
rest of the batch. -/
theorem keyless_record_skipped {σ : Type} (env : ProcessorEnv σ) (db : σ)
    (m : OwnedMessage) (rest : List OwnedMessage) (hkey : m.key = none) :
    process_record env db m = (db, []) ∧
    process_batch env (m :: rest) db = process_batch env rest db := by
  have h1 : process_record env db m = (db, []) := by
    obtain ⟨key, payload, ts⟩ := m
    simp only at hkey
    subst hkey
    rfl
  refine ⟨h1, ?_⟩
  simp only [process_batch, h1]

/-- C9 witness: a keyless record carrying a payload, against the concrete
environment; it is dropped without any action and the batch goes on. -/
theorem keyless_record_skipped_witness :
    process_record witnessEnv 0 ⟨none, some [1], .notAvailable⟩ = (0, []) ∧
    process_batch witnessEnv [⟨none, some [1], .notAvailable⟩] 0 =
      process_batch witnessEnv [] 0 :=
  keyless_record_skipped witnessEnv 0 ⟨none, some [1], .notAvailable⟩ [] rfl

/-- C7 — Sweeper frame and invariant: one run of the sweeper's UPDATE
leaves the table row-for-row where the WHERE clause rejects, sets exactly
`client_status = 'offline'` and `updated_at = now` where it selects, never
touches `client_id`, `user_id`, `client_name` or `valid_status`, and in
particular never moves a row whose `valid_status` is `'invalid'`. -/
theorem sweeper_frame (offline_after_secs now : Int) (rows : List GpuAssetRow) :
    List.Forall₂ (fun r r' =>
      (sweep_cond offline_after_secs now r →
        r' = { r with client_status := "offline", updated_at := now }) ∧
      (¬ sweep_cond offline_after_secs now r → r' = r) ∧
      r'.client_id = r.client_id ∧ r'.user_id = r.user_id ∧
      r'.client_name = r.client_name ∧ r'.valid_status = r.valid_status ∧
      (r.valid_status = "invalid" → r' = r))
      rows (sweep offline_after_secs now rows) := by
  unfold sweep
  rw [List.forall₂_map_right_iff, List.forall₂_same]
  intro r hr
  by_cases h : sweep_cond offline_after_secs now r
  · simp only [if_pos h]
    refine ⟨fun _ => trivial, fun hc => absurd h hc, trivial, trivial, trivial, trivial, ?_⟩
    intro hinv
    obtain ⟨hv, -, -⟩ := h
    rw [hinv] at hv
    exact absurd hv (by decide)
  · simp only [if_neg h]
    exact ⟨fun hc => absurd hc h, fun _ => trivial, trivial, trivial, trivial, trivial,
      fun _ => trivial⟩

/-- C8 — Sweeper idempotence: running the UPDATE again, at the same
instant and with no other write in between, selects no row at all: after
the first run no row is simultaneously valid, not offline, and stale. -/
theorem sweeper_idempotent (offline_after_secs now : Int) (rows : List GpuAssetRow) :
    sweep_rows_affected offline_after_secs now (sweep offline_after_secs now rows) = 0 := by
  unfold sweep_rows_affected sweep
  induction rows with
  | nil => rfl
  | cons r rest ih =>
    simp only [List.map_cons, List.filter_cons]
    by_cases h : sweep_cond offline_after_secs now r
    · rw [if_pos h]
      have hnot : ¬ sweep_cond offline_after_secs now
          { r with client_status := "offline", updated_at := now } := by
        intro hc
        obtain ⟨-, hoff, -⟩ := hc
        exact hoff rfl
      simp only [decide_eq_true_eq]
      rw [if_neg hnot]
      exact ih
    · rw [if_neg h]
      simp only [decide_eq_true_eq]
      rw [if_neg h]
      exact ih

end Server

namespace Server

/-- C6 counterexample — the claimed `NULLS LAST` ordering fails on the
code: with a catalog holding a row Z with `min_gpu_memory_gb = 0`,
`version_code = 1` and a row N with `min_gpu_memory_gb = NULL`,
`version_code = 2`, both passing the memory filter for `m = 12`, the query
orders N before Z (the CASE key maps NULL to 0, tying with Z, and
`version_code DESC` wins), while `DESC NULLS LAST` puts the non-null row Z
strictly before N — so the returned list is not sorted by the spec's
relation. -/
theorem get_models_list_nulls_last_counterexample :
    get_models_list [modelZeroGpu, modelNullGpu] none none (some 12) =
      [modelNullGpu, modelZeroGpu] ∧
    spec_nulls_last_le modelZeroGpu modelNullGpu = true ∧
    spec_nulls_last_le modelNullGpu modelZeroGpu = false ∧
    ¬ (get_models_list [modelZeroGpu, modelNullGpu] none none (some 12)).Pairwise
      (fun x y => spec_nulls_last_le x y = true) := by
  decide

/-- C6 (amended) — Catalog query semantics: `get_models_list` returns
exactly the catalog rows passing the supplied `is_active`, `engine_type`
and memory filters (the memory predicate being `min_gpu_memory_gb IS NULL
OR min_gpu_memory_gb ≤ m`), ordered by the CASE key — `min_gpu_memory_gb`
with NULL read as 0 — descending, then `version_code DESC`, then
`created_at DESC` (which agrees with `NULLS LAST` whenever every non-null
`min_gpu_memory_gb` is positive); in particular, on the catalog
{A(min_gpu=8, code=2), B(min_gpu=16, code=3), C(min_gpu=null, code=1)}
with `m = 12` the first returned row is A. -/
theorem get_models_list_rows_and_order (rows : List ClientModelRow)
    (is_active : Option Bool) (engine_type : Option Int) (min_gpu : Option Int) :
    (get_models_list rows is_active engine_type min_gpu).Perm
      (rows.filter (models_where is_active engine_type min_gpu)) ∧
    (get_models_list rows is_active engine_type min_gpu).Sorted models_le ∧
    (get_models_list [modelA, modelB, modelC] (some true) (some 3)
      (some 12)).head?.map ClientModelRow.name = some "A" :=
  ⟨List.perm_insertionSort _ _, List.sorted_insertionSort _ _, by decide⟩

end Server
